import Mathlib

/-!
Shallow embedding of `src/runners/capture-vm/capture-agent.py`:
the capture-agent lifecycle controller (process supervisor, lifecycle
state machine, artifact pipeline, notification dispatcher, control
surface), together with theorems settling the frozen claims about it.

External effects (subprocess launches, SIGTERM/kill, blob uploads,
webhook transport) are made explicit: launches and signals are returned
as effect logs, and outcomes of external calls (per-file pipeline
exceptions, webhook transport results, per-process wait timeouts) are
supplied as oracle parameters.  A Python exception escaping a handler is
modelled as an absent HTTP response (the `http.server` base class closes
the connection without replying when `do_POST` raises).
-/

namespace CaptureAgent

/-- Configuration read from the environment at startup
(STORAGE_ACCOUNT_NAME, OFFSITE_WEBHOOK_URL, RUNNER_SUBNET, CAPTURE_IFACE). -/
structure Cfg where
  storage_acct : String
  webhook_url : String
  runner_subnet : String
  iface : String
deriving DecidableEq, Repr

/-- PCAP_CONTAINER constant. -/
def PCAP_CONTAINER : String := "pcap-staging"

/-- A Capture Filter Profile: one packet filter expression per IP family. -/
structure Profile where
  ipv4_filter : String
  ipv6_filter : String
deriving DecidableEq, Repr

/-- RUNNER_PROFILES: static dict keyed by runner id; `none` models a KeyError
on lookup of an unknown runner id. -/
def RUNNER_PROFILES (subnet : String) (r : String) : Option Profile :=
  if r = "curl" then
    some ⟨"src net " ++ subnet ++ " and tcp",
          "ip6 and src net ace:cab:deca:deed::/64 and tcp"⟩
  else if r = "chrome" then
    some ⟨"src net " ++ subnet ++ " and tcp",
          "ip6 and src net ace:cab:deca:deed::/64 and tcp"⟩
  else none

/-- The agent phase: the value of state["phase"]. -/
inductive Phase
  | idle
  | capturing
  | uploading
  | done
deriving DecidableEq, Repr

/-- The string stored in the Python state dict for each phase. -/
def Phase.str : Phase → String
  | .idle => "idle"
  | .capturing => "capturing"
  | .uploading => "uploading"
  | .done => "done"

/-- The global `state` dict: phase, run_id (None initially) and the
last_webhook_http key added when the background task completes. -/
structure AgentState where
  phase : Phase
  run_id : Option String
  last_webhook_http : Option Nat
deriving DecidableEq, Repr

/-- Initial state: state = phase idle, run_id None. -/
def initState : AgentState := ⟨Phase.idle, none, none⟩

/-- The global `procs` dict: insertion-ordered mapping from capture key
(for example "curl-ipv4") to the subprocess handle, modelled as a pid. -/
abbrev Procs := List (String × Nat)

/-- Python dict assignment d[k] = v: overwrite in place when the key is
present, append otherwise. -/
def dinsert (d : Procs) (k : String) (v : Nat) : Procs :=
  if d.any (fun p => p.1 == k) then
    d.map (fun p => if p.1 == k then (k, v) else p)
  else
    d ++ [(k, v)]

/-- The keys of the procs dict, in iteration order. -/
def dkeys (d : Procs) : List String := d.map Prod.fst

/-- The handles of the procs dict, in iteration order. -/
def dvalues (d : Procs) : List Nat := d.map Prod.snd

/-- pcap_path: the well-known raw capture file name for a capture key. -/
def pcap_path (run_id runner ip_family : String) : String :=
  run_id ++ "-" ++ runner ++ "-" ++ ip_family ++ ".pcap"

/-- The capture key string built by start_capture. -/
def capKey (runner ip_family : String) : String :=
  runner ++ "-" ++ ip_family

/-- The tcpdump command line built by start_capture. -/
def tcpdumpCmd (cfg : Cfg) (out filt : String) : List String :=
  ["tcpdump", "-i", cfg.iface, "-w", out, "-s", "0", "--immediate-mode", filt]

/-- One subprocess.Popen effect: the capture key it was recorded under,
the fresh process handle, and the command line. -/
structure Launch where
  key : String
  pid : Nat
  cmd : List String
deriving DecidableEq, Repr

/-- The ip_family loop of start_capture: (family name, profile field). -/
def ipFamilies : List (String × (Profile → String)) :=
  [("ipv4", Profile.ipv4_filter), ("ipv6", Profile.ipv6_filter)]

/-- Inner loop of start_capture over IP families for one runner.
Returns (procs, next fresh pid, launch log, completed).  A missing
profile raises KeyError: the loop stops with completed = false and the
mutations already performed persist. -/
def startFam (cfg : Cfg) (run_id runner : String)
    (fams : List (String × (Profile → String)))
    (procs : Procs) (nextPid : Nat) (acc : List Launch) :
    Procs × Nat × List Launch × Bool :=
  match fams with
  | [] => (procs, nextPid, acc, true)
  | (fam, proj) :: rest =>
    let key := capKey runner fam
    let out := pcap_path run_id runner fam
    match RUNNER_PROFILES cfg.runner_subnet runner with
    | none => (procs, nextPid, acc, false)
    | some prof =>
      let filt := proj prof
      let cmd := tcpdumpCmd cfg out filt
      startFam cfg run_id runner rest (dinsert procs key nextPid)
        (nextPid + 1) (acc ++ [⟨key, nextPid, cmd⟩])

/-- Outer loop of start_capture over the runner list. -/
def startRunners (cfg : Cfg) (run_id : String) (runners : List String)
    (procs : Procs) (nextPid : Nat) (acc : List Launch) :
    Procs × Nat × List Launch × Bool :=
  match runners with
  | [] => (procs, nextPid, acc, true)
  | r :: rest =>
    match startFam cfg run_id r ipFamilies procs nextPid acc with
    | (p, n, a, true) => startRunners cfg run_id rest p n a
    | (p, n, a, false) => (p, n, a, false)

/-- The outcome of one start_capture call: the state dict, the procs
dict, the fresh-pid counter, the Popen log, and whether the function ran
to completion (false models a KeyError escaping it). -/
structure StartResult where
  st : AgentState
  procs : Procs
  nextPid : Nat
  launched : List Launch
  completed : Bool
deriving DecidableEq, Repr

/-- start_capture(run_id, runners): launches one tcpdump per
runner x IP family, then sets phase = capturing and records run_id.
When a profile lookup raises KeyError the state dict is left untouched
(the two assignments at the end are never reached) but procs keeps the
entries already inserted. -/
def start_capture (cfg : Cfg) (run_id : String) (runners : List String)
    (st : AgentState) (procs : Procs) (nextPid : Nat) : StartResult :=
  match startRunners cfg run_id runners procs nextPid [] with
  | (p, n, a, true) =>
    ⟨{ st with phase := Phase.capturing, run_id := some run_id }, p, n, a, true⟩
  | (p, n, a, false) => ⟨st, p, n, a, false⟩

/-- The outcome of one stop_capture call: the drained table and the
effect logs of the two loops. -/
structure StopResult where
  procs : Procs
  signalled : List Nat
  killed : List Nat
deriving DecidableEq, Repr

/-- stop_capture(): SIGTERM every supervised process, wait up to 10s for
each (kill on timeout), then procs.clear() unconditionally.  `timedOut`
is the oracle telling which handles fail to exit within the bound. -/
def stop_capture (procs : Procs) (timedOut : Nat → Bool) : StopResult :=
  let signalled := procs.map (fun p => p.2)
  let killed := (procs.map (fun p => p.2)).filter timedOut
  ⟨[], signalled, killed⟩

/-- An Uploaded Artifact Record as appended to `results`. -/
structure Record where
  key : String
  blob_name : String
  sas_url : String
  sas_expiry : String
  size_bytes : Nat
deriving DecidableEq, Repr

/-- Lexicographic strict comparison on character lists: how Python
orders the strings being sorted. -/
def charLt : List Char → List Char → Bool
  | [], [] => false
  | [], _ :: _ => true
  | _ :: _, [] => false
  | x :: xs, y :: ys => if x = y then charLt xs ys else decide (x < y)

/-- Ascending comparison on strings, as used by Python sorted(). -/
def strLe (a b : String) : Bool := !(charLt b.data a.data)

/-- Whether string s starts with the pattern pre. -/
def hasPre (pre s : String) : Bool := s.data.take pre.data.length == pre.data

/-- Whether string s ends with the pattern suf. -/
def hasSuf (suf s : String) : Bool :=
  s.data.drop (s.data.length - suf.data.length) == suf.data

/-- Insert into a sorted list, keeping ascending order. -/
def insertSorted (x : String) : List String → List String
  | [] => [x]
  | y :: ys => if strLe x y then x :: y :: ys else y :: insertSorted x ys

/-- sorted(): ascending insertion sort on file names. -/
def sortStrings : List String → List String
  | [] => []
  | x :: xs => insertSorted x (sortStrings xs)

/-- PCAP_DIR.glob(run_id ++ "-*.pcap") over the directory contents `fs`,
in sorted order. -/
def globSorted (run_id : String) (fs : List String) : List String :=
  sortStrings (fs.filter (fun n => hasPre (run_id ++ "-") n && hasSuf ".pcap" n))

/-- The per-file loop of compress_and_upload.  `fails f = true` models an
exception raised during the compression or upload of file f; it
propagates, so the loop aborts there: the local `results` list is lost
to the caller and no later file is touched.  Returns the blob names
actually uploaded (side effects that did happen) and either the final
record list or the name of the file whose step raised. -/
def uploadLoop (cfg : Cfg) (run_id : String) (files : List String)
    (fails : String → Bool) (fsize : String → Nat) (sasTok : String → String)
    (expiry : String) (acc : List Record) (uploaded : List String) :
    List String × Except String (List Record) :=
  match files with
  | [] => (uploaded, Except.ok acc)
  | name :: rest =>
    if fails name then (uploaded, Except.error name)
    else
      let blob_name := run_id ++ "/" ++ name ++ ".gz"
      let sas_url := "https://" ++ cfg.storage_acct ++ ".blob.core.windows.net/"
        ++ PCAP_CONTAINER ++ "/" ++ blob_name ++ "?" ++ sasTok blob_name
      let r : Record := ⟨name, blob_name, sas_url, expiry, fsize name⟩
      uploadLoop cfg run_id rest fails fsize sasTok expiry
        (acc ++ [r]) (uploaded ++ [blob_name])

/-- The outcome of one compress_and_upload call: the state dict (it sets
phase = uploading first), the blob names actually uploaded, and either
the record list or the file whose step raised. -/
structure PipeResult where
  st : AgentState
  uploaded : List String
  result : Except String (List Record)
deriving Repr

/-- compress_and_upload(run_id): first sets state phase = uploading, then
iterates the sorted glob of raw capture files.  `fs` is the directory
contents, `fsize` the on-disk gzip sizes, `sasTok` the SAS token
generator, `expiry` the computed expiry timestamp string. -/
def compress_and_upload (cfg : Cfg) (run_id : String) (fs : List String)
    (fails : String → Bool) (fsize : String → Nat) (sasTok : String → String)
    (expiry : String) (st : AgentState) : PipeResult :=
  let st1 := { st with phase := Phase.uploading }
  let r := uploadLoop cfg run_id (globSorted run_id fs) fails fsize sasTok expiry [] []
  ⟨st1, r.1, r.2⟩

/-- The note string of the manifest payload. -/
def MANIFEST_NOTE : String := "SAS URLs expire in 24h. Fetch promptly."

/-- The JSON payload POSTed to the offsite webhook. -/
structure Manifest where
  run_id : String
  timestamp : String
  pcap_files : List Record
  note : String
deriving DecidableEq, Repr

/-- notify_offsite(run_id, pcap_files): builds the manifest and makes a
single POST of it to the webhook URL.  `transport m = some code` models
an HTTP response with that status, `none` any transport exception.
Returns the list of (url, payload) POSTs performed and the integer
returned (resp.status on success, sentinel 0 on failure). -/
def notify_offsite (cfg : Cfg) (run_id : String) (pcap_files : List Record)
    (timestamp : String) (transport : Manifest → Option Nat) :
    List (String × Manifest) × Nat :=
  let payload : Manifest := ⟨run_id, timestamp, pcap_files, MANIFEST_NOTE⟩
  match transport payload with
  | some status => ([(cfg.webhook_url, payload)], status)
  | none => ([(cfg.webhook_url, payload)], 0)

/-- The outcome of the background task: the final state dict, the blob
names uploaded, and the webhook POSTs performed. -/
structure FinishResult where
  st : AgentState
  uploaded : List String
  sent : List (String × Manifest)
deriving DecidableEq, Repr

/-- The finish() closure run on the background thread after stop:
compress_and_upload, then notify_offsite, then under the lock set
phase = done and record last_webhook_http.  When compress_and_upload
raises, the exception kills the thread: notify_offsite is never called
and the state keeps the phase compress_and_upload left it in. -/
def finish (cfg : Cfg) (run_id : String) (fs : List String)
    (fails : String → Bool) (fsize : String → Nat) (sasTok : String → String)
    (expiry timestamp : String) (transport : Manifest → Option Nat)
    (st : AgentState) : FinishResult :=
  match compress_and_upload cfg run_id fs fails fsize sasTok expiry st with
  | ⟨st1, uploaded, Except.error _⟩ => ⟨st1, uploaded, []⟩
  | ⟨st1, uploaded, Except.ok pcap_files⟩ =>
    match notify_offsite cfg run_id pcap_files timestamp transport with
    | (sent, wh) =>
      ⟨{ st1 with phase := Phase.done, last_webhook_http := some wh }, uploaded, sent⟩

/-- A parsed JSON request body: the two fields do_POST reads, each
possibly absent.  A request whose body is not valid JSON never reaches
this type (json.loads raises first). -/
structure ReqBody where
  run_id : Option String
  runners : Option (List String)
deriving DecidableEq, Repr

/-- The JSON bodies the agent sends. -/
inductive RespBody
  | err (msg : String)
  | statusOf (st : AgentState)
  | started (run_id : String)
  | stopping (run_id : Option String)
deriving DecidableEq, Repr

/-- do_GET: /status returns the state dict, anything else 404. -/
def do_GET (path : String) (st : AgentState) : Nat × RespBody :=
  if path = "/status" then (200, RespBody.statusOf st)
  else (404, RespBody.err "not found")

/-- The whole mutable server state: the state dict, the procs dict, and
the model fresh-pid counter. -/
structure Sys where
  st : AgentState
  procs : Procs
  nextPid : Nat
deriving DecidableEq, Repr

/-- The server state at startup. -/
def initSys : Sys := ⟨initState, [], 0⟩

/-- Everything one do_POST call produces: the HTTP response (none when an
exception escapes the handler and the connection is closed without a
response), the new server state, the effect logs of the synchronous
part, and the run_id of the background finish task when one was
spawned. -/
structure PostResult where
  resp : Option (Nat × RespBody)
  sys : Sys
  launched : List Launch
  signalled : List Nat
  killed : List Nat
  bg : Option (Option String)
deriving DecidableEq, Repr

/-- do_POST.  body = none models a body that is not valid JSON:
json.loads raises before any path dispatch, so no response is sent and
nothing is mutated.  On /start from idle, a KeyError escaping
start_capture also yields no response, with the partial procs mutations
kept.  On /stop from capturing, the synchronous part signals and drains
the table and spawns the background finish task; the phase is NOT
changed here. -/
def do_POST (cfg : Cfg) (path : String) (body : Option ReqBody) (sys : Sys)
    (timedOut : Nat → Bool) : PostResult :=
  match body with
  | none => ⟨none, sys, [], [], [], none⟩
  | some b =>
    if path = "/start" then
      if sys.st.phase ≠ Phase.idle then
        ⟨some (409, RespBody.err ("already in phase: " ++ sys.st.phase.str)),
          sys, [], [], [], none⟩
      else
        let run_id := b.run_id.getD "unknown"
        let runners := b.runners.getD ["curl", "chrome"]
        match start_capture cfg run_id runners sys.st sys.procs sys.nextPid with
        | ⟨st1, p1, n1, a, true⟩ =>
          ⟨some (200, RespBody.started run_id), ⟨st1, p1, n1⟩, a, [], [], none⟩
        | ⟨st1, p1, n1, a, false⟩ =>
          ⟨none, ⟨st1, p1, n1⟩, a, [], [], none⟩
    else if path = "/stop" then
      if sys.st.phase ≠ Phase.capturing then
        ⟨some (409, RespBody.err ("not capturing, phase=" ++ sys.st.phase.str)),
          sys, [], [], [], none⟩
      else
        let run_id := sys.st.run_id
        match stop_capture sys.procs timedOut with
        | ⟨p1, signalled, killed⟩ =>
          ⟨some (200, RespBody.stopping run_id), ⟨sys.st, p1, sys.nextPid⟩,
            [], signalled, killed, some run_id⟩
    else
      ⟨some (404, RespBody.err "not found"), sys, [], [], [], none⟩

/-! Helper definitions used by the theorems below: closed-form shapes of
the start loop, and concrete fixtures for witnesses and
counterexamples. -/

/-- The two dict assignments start_capture performs for one runner. -/
def insertRun (d : Procs) (r : String) (n : Nat) : Procs :=
  dinsert (dinsert d (capKey r "ipv4") n) (capKey r "ipv6") (n + 1)

/-- The dict assignments start_capture performs for a runner list,
numbering handles from n. -/
def insertAll (d : Procs) (rs : List String) (n : Nat) : Procs :=
  match rs with
  | [] => d
  | r :: rest => insertAll (insertRun d r n) rest (n + 2)

/-- The two Popen effects start_capture performs for one runner. -/
def launchPair (cfg : Cfg) (run_id r : String) (n : Nat) : List Launch :=
  match RUNNER_PROFILES cfg.runner_subnet r with
  | some prof =>
    [⟨capKey r "ipv4", n, tcpdumpCmd cfg (pcap_path run_id r "ipv4") prof.ipv4_filter⟩,
     ⟨capKey r "ipv6", n + 1, tcpdumpCmd cfg (pcap_path run_id r "ipv6") prof.ipv6_filter⟩]
  | none => []

/-- The Popen effects start_capture performs for a runner list. -/
def launchesFor (cfg : Cfg) (run_id : String) (rs : List String) (n : Nat) :
    List Launch :=
  match rs with
  | [] => []
  | r :: rest => launchPair cfg run_id r n ++ launchesFor cfg run_id rest (n + 2)

/-- The capture keys a runner list gives rise to, with multiplicity. -/
def klist : List String → List String
  | [] => []
  | r :: rest => capKey r "ipv4" :: capKey r "ipv6" :: klist rest

/-- Invariant of the start loop relating the procs dict to the Popen
log: every handle in the table is below the fresh-pid counter, is the
handle of some logged launch with that capture key, and is the largest
(hence the most recent) handle launched under that key. -/
def StartInv (d : Procs) (launched : List Launch) (n : Nat) : Prop :=
  (∀ L ∈ launched, L.pid < n) ∧
  ∀ k v, (k, v) ∈ d →
    v < n ∧ (∃ L ∈ launched, L.key = k ∧ L.pid = v) ∧
      ∀ L ∈ launched, L.key = k → L.pid ≤ v

/-- A concrete configuration used by witnesses and counterexamples. -/
def cfg0 : Cfg := ⟨"acct", "https://offsite.example/hook", "10.10.1.0/24", "vxlan0"⟩

/-- A concrete timeout oracle: every process exits within the bound. -/
def tf0 : Nat → Bool := fun _ => false

/-- A concrete server state in phase done. -/
def sysDone : Sys := ⟨⟨Phase.done, some "r0", some 200⟩, [], 4⟩

/-- A concrete server state in phase capturing with one tracked process. -/
def sysCap : Sys := ⟨⟨Phase.capturing, some "active-run", none⟩, [("curl-ipv4", 0)], 1⟩

/-! Lemmas about the Python dict model. -/

theorem any_key_iff (d : Procs) (k : String) :
    d.any (fun p => p.1 == k) = true ↔ k ∈ dkeys d := by
  simp [dkeys, List.any_eq_true]

theorem dkeys_map_keep (d : Procs) (k : String) (v : Nat) :
    dkeys (d.map (fun p => if p.1 == k then (k, v) else p)) = dkeys d := by
  unfold dkeys
  rw [List.map_map]
  refine List.map_congr_left ?_
  intro p _
  by_cases h : p.1 = k
  · simp [h]
  · simp [h]

theorem dkeys_dinsert (d : Procs) (k : String) (v : Nat) :
    dkeys (dinsert d k v) = if k ∈ dkeys d then dkeys d else dkeys d ++ [k] := by
  unfold dinsert
  by_cases h : k ∈ dkeys d
  · rw [if_pos ((any_key_iff d k).mpr h), if_pos h, dkeys_map_keep]
  · rw [if_neg (fun hc => h ((any_key_iff d k).mp hc)), if_neg h]
    simp [dkeys]

theorem mem_dkeys_dinsert {d : Procs} {k : String} {v : Nat} {a : String} :
    a ∈ dkeys (dinsert d k v) ↔ a ∈ dkeys d ∨ a = k := by
  rw [dkeys_dinsert]
  split
  · constructor
    · exact Or.inl
    · rintro (h | rfl)
      · exact h
      · assumption
  · simp

theorem nodup_dkeys_dinsert {d : Procs} {k : String} {v : Nat}
    (h : (dkeys d).Nodup) : (dkeys (dinsert d k v)).Nodup := by
  rw [dkeys_dinsert]
  split
  · exact h
  · rename_i hk
    simp [List.nodup_append, h, List.disjoint_singleton, hk]

theorem mem_dinsert {d : Procs} {k : String} {v : Nat} {a : String} {b : Nat} :
    (a, b) ∈ dinsert d k v ↔ (a = k ∧ b = v) ∨ ((a, b) ∈ d ∧ a ≠ k) := by
  unfold dinsert
  by_cases h : d.any (fun p => p.1 == k) = true
  · rw [if_pos h]
    constructor
    · intro hm
      obtain ⟨p, hp, he⟩ := List.mem_map.mp hm
      by_cases hk : p.1 = k
      · rw [if_pos (by simpa using hk)] at he
        left
        exact ⟨(Prod.mk.injEq _ _ _ _ ▸ he.symm).1, (Prod.mk.injEq _ _ _ _ ▸ he.symm).2⟩
      · rw [if_neg (by simpa using hk)] at he
        right
        rw [he] at hp hk
        exact ⟨hp, hk⟩
    · rintro (⟨rfl, rfl⟩ | ⟨hab, hne⟩)
      · obtain ⟨p, hp, hpk⟩ := List.any_eq_true.mp h
        exact List.mem_map.mpr ⟨p, hp, by rw [if_pos hpk]⟩
      · exact List.mem_map.mpr ⟨(a, b), hab, by rw [if_neg (by simpa using hne)]⟩
  · rw [if_neg h]
    have hnk : ∀ p ∈ d, p.1 ≠ k := by
      intro p hp hpk
      exact h (List.any_eq_true.mpr ⟨p, hp, by simpa using hpk⟩)
    constructor
    · intro hm
      rcases List.mem_append.mp hm with hd | hs
      · exact Or.inr ⟨hd, hnk _ hd⟩
      · left
        have : (a, b) = (k, v) := by simpa using hs
        exact ⟨congrArg Prod.fst this, congrArg Prod.snd this⟩
    · rintro (⟨rfl, rfl⟩ | ⟨hab, _⟩)
      · exact List.mem_append.mpr (Or.inr (by simp))
      · exact List.mem_append.mpr (Or.inl hab)

/-! Lemmas about the runner profiles and capture keys. -/

theorem valid_of_isSome {subnet r : String}
    (h : (RUNNER_PROFILES subnet r).isSome = true) :
    r = "curl" ∨ r = "chrome" := by
  by_cases h1 : r = "curl"
  · exact Or.inl h1
  by_cases h2 : r = "chrome"
  · exact Or.inr h2
  · rw [RUNNER_PROFILES, if_neg h1, if_neg h2] at h
    simp at h

theorem capKey_eq_iff {r s f g : String}
    (hr : r = "curl" ∨ r = "chrome") (hs : s = "curl" ∨ s = "chrome")
    (hf : f = "ipv4" ∨ f = "ipv6") (hg : g = "ipv4" ∨ g = "ipv6") :
    capKey r f = capKey s g ↔ (r = s ∧ f = g) := by
  rcases hr with rfl | rfl <;> rcases hs with rfl | rfl <;>
    rcases hf with rfl | rfl <;> rcases hg with rfl | rfl <;> decide

theorem mem_klist {a : String} {rs : List String} :
    a ∈ klist rs ↔ ∃ r ∈ rs, a = capKey r "ipv4" ∨ a = capKey r "ipv6" := by
  induction rs with
  | nil => simp [klist]
  | cons r rest ih =>
    simp only [klist, List.mem_cons, ih]
    constructor
    · rintro (rfl | rfl | ⟨s, hs, h⟩)
      · exact ⟨r, Or.inl rfl, Or.inl rfl⟩
      · exact ⟨r, Or.inl rfl, Or.inr rfl⟩
      · exact ⟨s, Or.inr hs, h⟩
    · rintro ⟨s, rfl | hs, h | h⟩
      · exact Or.inl h
      · exact Or.inr (Or.inl h)
      · exact Or.inr (Or.inr ⟨s, hs, Or.inl h⟩)
      · exact Or.inr (Or.inr ⟨s, hs, Or.inr h⟩)

/-! Closed forms of the start loop. -/

theorem startFam_eq (cfg : Cfg) (run_id r : String) {prof : Profile}
    (hp : RUNNER_PROFILES cfg.runner_subnet r = some prof)
    (d : Procs) (n : Nat) (acc : List Launch) :
    startFam cfg run_id r ipFamilies d n acc =
      (insertRun d r n, n + 2, acc ++ launchPair cfg run_id r n, true) := by
  simp [startFam, ipFamilies, hp, insertRun, launchPair, capKey]

theorem startRunners_eq (cfg : Cfg) (run_id : String) (rs : List String)
    (hv : ∀ r ∈ rs, (RUNNER_PROFILES cfg.runner_subnet r).isSome = true) :
    ∀ d n acc, startRunners cfg run_id rs d n acc =
      (insertAll d rs n, n + 2 * rs.length, acc ++ launchesFor cfg run_id rs n, true) := by
  induction rs with
  | nil => intro d n acc; simp [startRunners, insertAll, launchesFor]
  | cons r rest ih =>
    intro d n acc
    obtain ⟨prof, hp⟩ := Option.isSome_iff_exists.mp (hv r (List.mem_cons_self r rest))
    rw [startRunners, startFam_eq cfg run_id r hp]
    show startRunners cfg run_id rest (insertRun d r n) (n + 2)
        (acc ++ launchPair cfg run_id r n) = _
    rw [ih (fun x hx => hv x (List.mem_cons_of_mem r hx))]
    simp only [insertAll, launchesFor, List.append_assoc, List.length_cons]
    have harith : n + 2 + 2 * rest.length = n + 2 * (rest.length + 1) := by omega
    rw [harith]

/-! Key-set and cardinality lemmas for the populated table. -/

theorem mem_dkeys_insertAll {rs : List String} :
    ∀ {d : Procs} {n : Nat} {a : String},
      a ∈ dkeys (insertAll d rs n) ↔ a ∈ dkeys d ∨ a ∈ klist rs := by
  induction rs with
  | nil => intro d n a; simp [insertAll, klist]
  | cons r rest ih =>
    intro d n a
    rw [insertAll]
    rw [ih]
    simp only [insertRun, mem_dkeys_dinsert, klist, List.mem_cons]
    tauto

theorem nodup_dkeys_insertAll {rs : List String} :
    ∀ {d : Procs} {n : Nat}, (dkeys d).Nodup → (dkeys (insertAll d rs n)).Nodup := by
  induction rs with
  | nil => intro d n h; simpa [insertAll] using h
  | cons r rest ih =>
    intro d n h
    rw [insertAll]
    exact ih (nodup_dkeys_dinsert (nodup_dkeys_dinsert h))

theorem card_klist_toFinset (rs : List String)
    (hv : ∀ r ∈ rs, r = "curl" ∨ r = "chrome") :
    (klist rs).toFinset.card = 2 * rs.toFinset.card := by
  induction rs with
  | nil => simp [klist]
  | cons r rest ih =>
    have hr := hv r (List.mem_cons_self r rest)
    have hrest : ∀ x ∈ rest, x = "curl" ∨ x = "chrome" :=
      fun x hx => hv x (List.mem_cons_of_mem r hx)
    have hne46 : capKey r "ipv4" ≠ capKey r "ipv6" := by
      intro he
      have := (capKey_eq_iff hr hr (Or.inl rfl) (Or.inr rfl)).mp he
      exact absurd this.2 (by decide)
    by_cases h : r ∈ rest
    · have h4 : capKey r "ipv4" ∈ klist rest := mem_klist.mpr ⟨r, h, Or.inl rfl⟩
      have h6 : capKey r "ipv6" ∈ klist rest := mem_klist.mpr ⟨r, h, Or.inr rfl⟩
      rw [klist, List.toFinset_cons, List.toFinset_cons,
        Finset.insert_eq_self.mpr (List.mem_toFinset.mpr h6),
        Finset.insert_eq_self.mpr (List.mem_toFinset.mpr h4),
        List.toFinset_cons, Finset.insert_eq_self.mpr (List.mem_toFinset.mpr h), ih hrest]
    · have h4 : capKey r "ipv4" ∉ klist rest := by
        intro hc
        obtain ⟨s, hs, he⟩ := mem_klist.mp hc
        rcases he with he | he
        · exact h (((capKey_eq_iff hr (hrest s hs) (Or.inl rfl) (Or.inl rfl)).mp he).1 ▸ hs)
        · exact absurd ((capKey_eq_iff hr (hrest s hs) (Or.inl rfl) (Or.inr rfl)).mp he).2
            (by decide)
      have h6 : capKey r "ipv6" ∉ klist rest := by
        intro hc
        obtain ⟨s, hs, he⟩ := mem_klist.mp hc
        rcases he with he | he
        · exact absurd ((capKey_eq_iff hr (hrest s hs) (Or.inr rfl) (Or.inl rfl)).mp he).2
            (by decide)
        · exact h (((capKey_eq_iff hr (hrest s hs) (Or.inr rfl) (Or.inr rfl)).mp he).1 ▸ hs)
      rw [klist, List.toFinset_cons, List.toFinset_cons, List.toFinset_cons]
      rw [Finset.card_insert_of_not_mem (by
        simp only [Finset.mem_insert, List.mem_toFinset]
        rintro (he | hm)
        · exact hne46 he
        · exact h4 hm)]
      rw [Finset.card_insert_of_not_mem (List.mem_toFinset.not.mpr h6)]
      rw [Finset.card_insert_of_not_mem (List.mem_toFinset.not.mpr h)]
      rw [ih hrest]
      ring

theorem length_insertAll_empty (rs : List String) (n : Nat)
    (hv : ∀ r ∈ rs, r = "curl" ∨ r = "chrome") :
    (insertAll [] rs n).length = 2 * rs.dedup.length := by
  have hnd : (dkeys (insertAll [] rs n)).Nodup := nodup_dkeys_insertAll (by simp [dkeys])
  have hlen : (insertAll [] rs n).length = (dkeys (insertAll [] rs n)).length :=
    (List.length_map _ _).symm
  have hset : (dkeys (insertAll [] rs n)).toFinset = (klist rs).toFinset := by
    ext a
    simp only [List.mem_toFinset, mem_dkeys_insertAll]
    simp [dkeys]
  rw [hlen, ← List.toFinset_card_of_nodup hnd, hset, card_klist_toFinset rs hv,
    List.card_toFinset]

theorem length_launchPair (cfg : Cfg) (run_id r : String) (n : Nat)
    (h : (RUNNER_PROFILES cfg.runner_subnet r).isSome = true) :
    (launchPair cfg run_id r n).length = 2 := by
  obtain ⟨prof, hp⟩ := Option.isSome_iff_exists.mp h
  simp [launchPair, hp]

theorem length_launchesFor (cfg : Cfg) (run_id : String) (rs : List String)
    (hv : ∀ r ∈ rs, (RUNNER_PROFILES cfg.runner_subnet r).isSome = true) :
    ∀ n, (launchesFor cfg run_id rs n).length = 2 * rs.length := by
  induction rs with
  | nil => intro n; simp [launchesFor]
  | cons r rest ih =>
    intro n
    rw [launchesFor, List.length_append,
      length_launchPair cfg run_id r n (hv r (List.mem_cons_self r rest)),
      ih (fun x hx => hv x (List.mem_cons_of_mem r hx))]
    simp
    ring

/-! The start-loop invariant: the table retains the most recently
launched handle per capture key. -/

theorem launchPair_spec (cfg : Cfg) (run_id r : String) (n : Nat) {prof : Profile}
    (hp : RUNNER_PROFILES cfg.runner_subnet r = some prof) :
    ∃ L4 L6 : Launch, launchPair cfg run_id r n = [L4, L6] ∧
      L4.key = capKey r "ipv4" ∧ L4.pid = n ∧
      L6.key = capKey r "ipv6" ∧ L6.pid = n + 1 := by
  exact ⟨⟨capKey r "ipv4", n, tcpdumpCmd cfg (pcap_path run_id r "ipv4") prof.ipv4_filter⟩,
    ⟨capKey r "ipv6", n + 1, tcpdumpCmd cfg (pcap_path run_id r "ipv6") prof.ipv6_filter⟩,
    by simp [launchPair, hp], rfl, rfl, rfl, rfl⟩

theorem startInv_insertRun (cfg : Cfg) (run_id r : String)
    (hr : r = "curl" ∨ r = "chrome") {prof : Profile}
    (hp : RUNNER_PROFILES cfg.runner_subnet r = some prof)
    {d : Procs} {launched : List Launch} {n : Nat}
    (h : StartInv d launched n) :
    StartInv (insertRun d r n) (launched ++ launchPair cfg run_id r n) (n + 2) := by
  obtain ⟨hbound, htab⟩ := h
  have hne46 : capKey r "ipv4" ≠ capKey r "ipv6" := by
    intro he
    exact absurd ((capKey_eq_iff hr hr (Or.inl rfl) (Or.inr rfl)).mp he).2 (by decide)
  obtain ⟨L4, L6, hpair, hk4, hp4, hk6, hp6⟩ := launchPair_spec cfg run_id r n hp
  rw [hpair]
  constructor
  · intro L hL
    rcases List.mem_append.mp hL with hL | hL
    · have := hbound L hL
      omega
    · rcases List.mem_cons.mp hL with rfl | hL
      · omega
      · rcases List.mem_cons.mp hL with rfl | hL
        · omega
        · simp at hL
  · intro k v hm
    rw [insertRun] at hm
    rcases mem_dinsert.mp hm with ⟨hk, hv1⟩ | ⟨hm1, hne6⟩
    · refine ⟨by omega, ⟨L6, List.mem_append.mpr (Or.inr (by simp)), by rw [hk6, hk],
        by omega⟩, ?_⟩
      intro L hL hLk
      rcases List.mem_append.mp hL with hL | hL
      · have := hbound L hL
        omega
      · rcases List.mem_cons.mp hL with rfl | hL
        · exact absurd (hk4.symm.trans (hLk.trans hk)) hne46
        · rcases List.mem_cons.mp hL with rfl | hL
          · omega
          · simp at hL
    · rcases mem_dinsert.mp hm1 with ⟨hk, hv1⟩ | ⟨hm2, hne4⟩
      · refine ⟨by omega, ⟨L4, List.mem_append.mpr (Or.inr (by simp)), by rw [hk4, hk],
          by omega⟩, ?_⟩
        intro L hL hLk
        rcases List.mem_append.mp hL with hL | hL
        · have := hbound L hL
          omega
        · rcases List.mem_cons.mp hL with rfl | hL
          · omega
          · rcases List.mem_cons.mp hL with rfl | hL
            · exact absurd (hk6.symm.trans (hLk.trans hk)) (fun he => hne46 he.symm)
            · simp at hL
      · obtain ⟨hvn, ⟨L0, hL0, hL0k, hL0p⟩, hmax⟩ := htab k v hm2
        refine ⟨by omega, ⟨L0, List.mem_append.mpr (Or.inl hL0), hL0k, hL0p⟩, ?_⟩
        intro L hL hLk
        rcases List.mem_append.mp hL with hL | hL
        · exact hmax L hL hLk
        · rcases List.mem_cons.mp hL with rfl | hL
          · exact absurd (hk4.symm.trans hLk).symm hne4
          · rcases List.mem_cons.mp hL with rfl | hL
            · exact absurd (hk6.symm.trans hLk).symm hne6
            · simp at hL

theorem startInv_insertAll (cfg : Cfg) (run_id : String) (rs : List String)
    (hv : ∀ r ∈ rs, (RUNNER_PROFILES cfg.runner_subnet r).isSome = true) :
    ∀ {d : Procs} {launched : List Launch} {n : Nat}, StartInv d launched n →
      StartInv (insertAll d rs n) (launched ++ launchesFor cfg run_id rs n)
        (n + 2 * rs.length) := by
  induction rs with
  | nil => intro d launched n h; simpa [insertAll, launchesFor] using h
  | cons r rest ih =>
    intro d launched n h
    have hr := valid_of_isSome (hv r (List.mem_cons_self r rest))
    obtain ⟨prof, hp⟩ := Option.isSome_iff_exists.mp (hv r (List.mem_cons_self r rest))
    have step := startInv_insertRun cfg run_id r hr hp h
    have main := ih (fun x hx => hv x (List.mem_cons_of_mem r hx)) step
    rw [insertAll, launchesFor]
    have harith : n + 2 + 2 * rest.length = n + 2 * (rest.length + 1) := by omega
    rw [List.length_cons, ← harith]
    simpa [List.append_assoc] using main

/-! Helper lemma: the pipeline loop completes when no per-file step
raises. -/

theorem uploadLoop_ok (cfg : Cfg) (run_id : String) (files : List String)
    (fsize : String → Nat) (sasTok : String → String) (expiry : String) :
    ∀ acc uploaded, ∃ recs ups,
      uploadLoop cfg run_id files (fun _ => false) fsize sasTok expiry acc uploaded =
        (ups, Except.ok recs) := by
  induction files with
  | nil => intro acc uploaded; exact ⟨acc, uploaded, rfl⟩
  | cons f rest ih =>
    intro acc uploaded
    simpa [uploadLoop] using ih _ _

/-- C4: a POST /start while the phase is not idle, and a POST /stop while
the phase is not capturing, each return a synchronous 409 conflict naming
the current phase, and leave the whole server state (phase, run_id and
the supervised process table) unchanged; a rejected stop performs no
subprocess termination (no SIGTERM, no kill, no background task). -/
theorem C4_conflict_atomicity (cfg : Cfg) (sys : Sys) (b : ReqBody)
    (tf : Nat → Bool) :
    (sys.st.phase ≠ Phase.idle →
      do_POST cfg "/start" (some b) sys tf =
        ⟨some (409, RespBody.err ("already in phase: " ++ sys.st.phase.str)),
          sys, [], [], [], none⟩) ∧
    (sys.st.phase ≠ Phase.capturing →
      do_POST cfg "/stop" (some b) sys tf =
        ⟨some (409, RespBody.err ("not capturing, phase=" ++ sys.st.phase.str)),
          sys, [], [], [], none⟩) := by
  constructor
  · intro h
    simp [do_POST, h]
  · intro h
    simp [do_POST, h]

/-- Witness for C4 at a concrete server state in phase done: both
conflict responses are produced and nothing changes. -/
theorem C4_conflict_atomicity_witness :
    do_POST cfg0 "/start" (some ⟨none, none⟩) sysDone tf0 =
        ⟨some (409, RespBody.err ("already in phase: " ++ sysDone.st.phase.str)),
          sysDone, [], [], [], none⟩ ∧
    do_POST cfg0 "/stop" (some ⟨none, none⟩) sysDone tf0 =
        ⟨some (409, RespBody.err ("not capturing, phase=" ++ sysDone.st.phase.str)),
          sysDone, [], [], [], none⟩ :=
  ⟨(C4_conflict_atomicity cfg0 sysDone ⟨none, none⟩ tf0).1 (by decide),
   (C4_conflict_atomicity cfg0 sysDone ⟨none, none⟩ tf0).2 (by decide)⟩

/-- C8: for a POST /stop accepted while capturing, the run_id field of
the request body is ignored: the result is identical for any two parsed
bodies, the echoed run_id is the active one from the state dict, and the
background task is spawned for the active run. -/
theorem C8_stop_ignores_body_run_id (cfg : Cfg) (sys : Sys) (b1 b2 : ReqBody)
    (tf : Nat → Bool) (h : sys.st.phase = Phase.capturing) :
    do_POST cfg "/stop" (some b1) sys tf = do_POST cfg "/stop" (some b2) sys tf ∧
    (do_POST cfg "/stop" (some b1) sys tf).resp =
      some (200, RespBody.stopping sys.st.run_id) ∧
    (do_POST cfg "/stop" (some b1) sys tf).bg = some sys.st.run_id := by
  refine ⟨?_, ?_, ?_⟩ <;> simp [do_POST, h, stop_capture]

/-- Witness for C8: a stop whose body names a different run_id behaves
exactly like one with no run_id at all, and echoes the active run. -/
theorem C8_stop_ignores_body_run_id_witness :
    do_POST cfg0 "/stop" (some ⟨some "other-run", none⟩) sysCap tf0 =
      do_POST cfg0 "/stop" (some ⟨none, none⟩) sysCap tf0 ∧
    (do_POST cfg0 "/stop" (some ⟨some "other-run", none⟩) sysCap tf0).resp =
      some (200, RespBody.stopping sysCap.st.run_id) ∧
    (do_POST cfg0 "/stop" (some ⟨some "other-run", none⟩) sysCap tf0).bg =
      some sysCap.st.run_id :=
  C8_stop_ignores_body_run_id cfg0 sysCap ⟨some "other-run", none⟩ ⟨none, none⟩ tf0
    (by decide)

/-- C9: a POST /start accepted from idle whose body omits the run_id
field or the runners field is not rejected as malformed: the agent
substitutes the default run_id "unknown" and/or the default runner list
(curl, chrome), starts captures under those defaults, and returns 200
echoing the substituted run_id. -/
theorem C9_start_defaults (cfg : Cfg) (sys : Sys) (tf : Nat → Bool) (rid : String)
    (h : sys.st.phase = Phase.idle) :
    ((do_POST cfg "/start" (some ⟨none, none⟩) sys tf).resp =
        some (200, RespBody.started "unknown") ∧
      (do_POST cfg "/start" (some ⟨none, none⟩) sys tf).sys.st.run_id =
        some "unknown" ∧
      (do_POST cfg "/start" (some ⟨none, none⟩) sys tf).sys.st.phase =
        Phase.capturing ∧
      (do_POST cfg "/start" (some ⟨none, none⟩) sys tf).launched.map Launch.key =
        ["curl-ipv4", "curl-ipv6", "chrome-ipv4", "chrome-ipv6"]) ∧
    ((do_POST cfg "/start" (some ⟨some rid, none⟩) sys tf).resp =
        some (200, RespBody.started rid) ∧
      (do_POST cfg "/start" (some ⟨some rid, none⟩) sys tf).sys.st.run_id =
        some rid ∧
      (do_POST cfg "/start" (some ⟨some rid, none⟩) sys tf).launched.map Launch.key =
        ["curl-ipv4", "curl-ipv6", "chrome-ipv4", "chrome-ipv6"]) ∧
    ((do_POST cfg "/start" (some ⟨none, some ["curl"]⟩) sys tf).resp =
        some (200, RespBody.started "unknown") ∧
      (do_POST cfg "/start" (some ⟨none, some ["curl"]⟩) sys tf).sys.st.run_id =
        some "unknown") := by
  refine ⟨⟨?_, ?_, ?_, ?_⟩, ⟨?_, ?_, ?_⟩, ⟨?_, ?_⟩⟩ <;>
    simp [do_POST, h, start_capture, startRunners, startFam, ipFamilies,
      RUNNER_PROFILES, capKey, tcpdumpCmd, pcap_path]

/-- Witness for C9 on a fresh agent with run_id "r9". -/
theorem C9_start_defaults_witness :
    ((do_POST cfg0 "/start" (some ⟨none, none⟩) initSys tf0).resp =
        some (200, RespBody.started "unknown") ∧
      (do_POST cfg0 "/start" (some ⟨none, none⟩) initSys tf0).sys.st.run_id =
        some "unknown" ∧
      (do_POST cfg0 "/start" (some ⟨none, none⟩) initSys tf0).sys.st.phase =
        Phase.capturing ∧
      (do_POST cfg0 "/start" (some ⟨none, none⟩) initSys tf0).launched.map Launch.key =
        ["curl-ipv4", "curl-ipv6", "chrome-ipv4", "chrome-ipv6"]) ∧
    ((do_POST cfg0 "/start" (some ⟨some "r9", none⟩) initSys tf0).resp =
        some (200, RespBody.started "r9") ∧
      (do_POST cfg0 "/start" (some ⟨some "r9", none⟩) initSys tf0).sys.st.run_id =
        some "r9" ∧
      (do_POST cfg0 "/start" (some ⟨some "r9", none⟩) initSys tf0).launched.map Launch.key =
        ["curl-ipv4", "curl-ipv6", "chrome-ipv4", "chrome-ipv6"]) ∧
    ((do_POST cfg0 "/start" (some ⟨none, some ["curl"]⟩) initSys tf0).resp =
        some (200, RespBody.started "unknown") ∧
      (do_POST cfg0 "/start" (some ⟨none, some ["curl"]⟩) initSys tf0).sys.st.run_id =
        some "unknown") :=
  C9_start_defaults cfg0 initSys tf0 "r9" (by decide)

/-- C7 (code evaluation): requests to unknown paths do receive the 404
not-found response, on GET and on POST with a parseable body; but a POST
to /start or /stop whose body is not valid JSON makes json.loads raise
before dispatch, so the handler sends no HTTP response at all — not the
synchronous 4xx the claim requires. -/
theorem C7_malformed_body_no_response :
    do_GET "/bogus" initState = (404, RespBody.err "not found") ∧
    (do_POST cfg0 "/bogus" (some ⟨none, none⟩) initSys tf0).resp =
      some (404, RespBody.err "not found") ∧
    (do_POST cfg0 "/start" none initSys tf0).resp = none ∧
    (do_POST cfg0 "/stop" none sysCap tf0).resp = none ∧
    (do_POST cfg0 "/stop" none sysCap tf0).sys = sysCap := by decide

/-- C5 (code evaluation): a POST /start from idle whose runner list
contains an id without a Capture Filter Profile raises KeyError after
the profiled runners were already launched: the handler dies with no
response, the phase stays idle, yet the supervised process table holds
the two curl entries — and a subsequent stop is rejected with a
conflict, so those entries are never drained.  This violates the claimed
invariant that the table is empty whenever the phase is idle. -/
theorem C5_table_nonempty_in_idle :
    (do_POST cfg0 "/start" (some ⟨some "r1", some ["curl", "bogus"]⟩) initSys tf0).resp
      = none ∧
    (do_POST cfg0 "/start" (some ⟨some "r1", some ["curl", "bogus"]⟩) initSys tf0).sys.st.phase
      = Phase.idle ∧
    (do_POST cfg0 "/start" (some ⟨some "r1", some ["curl", "bogus"]⟩) initSys tf0).sys.procs
      = [("curl-ipv4", 0), ("curl-ipv6", 1)] ∧
    (do_POST cfg0 "/stop" (some ⟨some "r1", none⟩)
        (do_POST cfg0 "/start" (some ⟨some "r1", some ["curl", "bogus"]⟩) initSys tf0).sys
        tf0).resp
      = some (409, RespBody.err ("not capturing, phase=" ++ Phase.idle.str)) ∧
    (do_POST cfg0 "/stop" (some ⟨some "r1", none⟩)
        (do_POST cfg0 "/start" (some ⟨some "r1", some ["curl", "bogus"]⟩) initSys tf0).sys
        tf0).sys.procs
      = [("curl-ipv4", 0), ("curl-ipv6", 1)] := by decide

/-- C1 (code evaluation): with two raw capture files on disk and an
exception raised while processing the first of them (in sorted order),
the whole pipeline iteration aborts: the second, healthy file is never
compressed or uploaded, no record list survives, no webhook POST is
made, and the phase is stuck at uploading instead of reaching done — so
the remaining files are dropped and nothing is reported, contradicting
the claim that only the failing file is skipped. -/
theorem C1_pipeline_aborts_on_first_failure :
    finish cfg0 "r1" ["r1-curl-ipv6.pcap", "r1-curl-ipv4.pcap"]
        (fun n => n == "r1-curl-ipv4.pcap") (fun _ => 100) (fun _ => "tok")
        "2026-10-13T00:00:00Z" "2026-10-12T00:00:00Z" (fun _ => some 200)
        ⟨Phase.capturing, some "r1", none⟩ =
      ⟨⟨Phase.uploading, some "r1", none⟩, [], []⟩ ∧
    (fun n => n == "r1-curl-ipv4.pcap") "r1-curl-ipv6.pcap" = false := by decide

/-- C2 counterexample: start then stop on a fresh agent.  The stop
response is sent, but the state left by the synchronous stop path still
has phase capturing, so a GET /status served after the stop response and
before the first background-task step reports capturing, not the
uploading the claim requires. -/
theorem C2_status_reports_capturing_after_stop :
    (do_POST cfg0 "/stop" (some ⟨some "r1", none⟩)
        (do_POST cfg0 "/start" (some ⟨some "r1", some ["curl"]⟩) initSys tf0).sys
        tf0).resp
      = some (200, RespBody.stopping (some "r1")) ∧
    do_GET "/status"
        (do_POST cfg0 "/stop" (some ⟨some "r1", none⟩)
          (do_POST cfg0 "/start" (some ⟨some "r1", some ["curl"]⟩) initSys tf0).sys
          tf0).sys.st
      = (200, RespBody.statusOf ⟨Phase.capturing, some "r1", none⟩) ∧
    Phase.capturing ≠ Phase.uploading := by decide

/-- C2 (amended): the transition to uploading is not part of the
synchronous stop transition: an accepted stop responds 200 echoing the
active run_id and leaves the phase capturing while spawning the
background task; the phase becomes uploading only once the background
task begins compress_and_upload, whose first action sets it. -/
theorem C2_uploading_set_by_background_task (cfg : Cfg) (sys : Sys) (b : ReqBody)
    (tf : Nat → Bool) (run_id : String) (fs : List String) (fails : String → Bool)
    (fsize : String → Nat) (sasTok : String → String) (expiry : String)
    (h : sys.st.phase = Phase.capturing) :
    (do_POST cfg "/stop" (some b) sys tf).resp =
      some (200, RespBody.stopping sys.st.run_id) ∧
    (do_POST cfg "/stop" (some b) sys tf).sys.st.phase = Phase.capturing ∧
    (do_POST cfg "/stop" (some b) sys tf).bg = some sys.st.run_id ∧
    (compress_and_upload cfg run_id fs fails fsize sasTok expiry
        (do_POST cfg "/stop" (some b) sys tf).sys.st).st.phase = Phase.uploading := by
  refine ⟨?_, ?_, ?_, ?_⟩ <;>
    simp [do_POST, h, stop_capture, compress_and_upload]

/-- Witness for C2 (amended) at a concrete capturing state. -/
theorem C2_uploading_set_by_background_task_witness :
    (do_POST cfg0 "/stop" (some ⟨some "active-run", none⟩) sysCap tf0).resp =
      some (200, RespBody.stopping sysCap.st.run_id) ∧
    (do_POST cfg0 "/stop" (some ⟨some "active-run", none⟩) sysCap tf0).sys.st.phase =
      Phase.capturing ∧
    (do_POST cfg0 "/stop" (some ⟨some "active-run", none⟩) sysCap tf0).bg =
      some sysCap.st.run_id ∧
    (compress_and_upload cfg0 "active-run" [] (fun _ => false) (fun _ => 0)
        (fun _ => "t") "e"
        (do_POST cfg0 "/stop" (some ⟨some "active-run", none⟩) sysCap tf0).sys.st).st.phase =
      Phase.uploading :=
  C2_uploading_set_by_background_task cfg0 sysCap ⟨some "active-run", none⟩ tf0
    "active-run" [] (fun _ => false) (fun _ => 0) (fun _ => "t") "e" (by decide)

/-- C6: notify_offsite makes exactly one delivery attempt per run,
returning the offsite status code on success and the sentinel 0 on any
transport failure; and when the pipeline completes, whatever the outcome
of that attempt, the background task still reaches phase done and
records the outcome, which GET /status then exposes. -/
theorem C6_single_notification_attempt (cfg : Cfg) (run_id : String)
    (pcap_files : List Record) (ts : String) (transport : Manifest → Option Nat)
    (st : AgentState) (fs : List String) (fsize : String → Nat)
    (sasTok : String → String) (expiry : String) :
    (notify_offsite cfg run_id pcap_files ts transport).1 =
      [(cfg.webhook_url, ⟨run_id, ts, pcap_files, MANIFEST_NOTE⟩)] ∧
    (notify_offsite cfg run_id pcap_files ts transport).2 =
      (transport ⟨run_id, ts, pcap_files, MANIFEST_NOTE⟩).getD 0 ∧
    (finish cfg run_id fs (fun _ => false) fsize sasTok expiry ts transport st).st.phase =
      Phase.done ∧
    ∃ wh,
      (finish cfg run_id fs (fun _ => false) fsize sasTok expiry ts transport
          st).st.last_webhook_http = some wh ∧
      do_GET "/status"
          (finish cfg run_id fs (fun _ => false) fsize sasTok expiry ts transport st).st =
        (200, RespBody.statusOf
          (finish cfg run_id fs (fun _ => false) fsize sasTok expiry ts transport st).st) := by
  obtain ⟨recs, ups, heq⟩ :=
    uploadLoop_ok cfg run_id (globSorted run_id fs) fsize sasTok expiry [] []
  have hfin : finish cfg run_id fs (fun _ => false) fsize sasTok expiry ts transport st =
      ⟨{ st with
          phase := Phase.done
          last_webhook_http := some ((transport ⟨run_id, ts, recs, MANIFEST_NOTE⟩).getD 0) },
        ups, [(cfg.webhook_url, ⟨run_id, ts, recs, MANIFEST_NOTE⟩)]⟩ := by
    cases htr : transport ⟨run_id, ts, recs, MANIFEST_NOTE⟩ <;>
      simp [finish, compress_and_upload, heq, notify_offsite, htr]
  refine ⟨?_, ?_, ?_, ⟨(transport ⟨run_id, ts, recs, MANIFEST_NOTE⟩).getD 0, ?_, ?_⟩⟩
  · cases htr : transport ⟨run_id, ts, pcap_files, MANIFEST_NOTE⟩ <;>
      simp [notify_offsite, htr]
  · cases htr : transport ⟨run_id, ts, pcap_files, MANIFEST_NOTE⟩ <;>
      simp [notify_offsite, htr]
  · rw [hfin]
  · rw [hfin]
  · rw [hfin]
    simp [do_GET]

/-- C3 counterexample: the valid runner list with a duplicate id.  The
claim as stated demands 2 x (list length) = 4 table entries, but the
dict keys collide and the code leaves only 2. -/
theorem C3_duplicate_list_counterexample :
    (do_POST cfg0 "/start" (some ⟨some "r1", some ["curl", "curl"]⟩) initSys
        tf0).sys.procs.length = 2 ∧
    2 ≠ 2 * ["curl", "curl"].length := by decide

/-- C3 (amended): for every valid runner list, a POST /start received
while the phase is idle with an empty process table transitions the
phase to capturing, records the given run_id, returns 200, and leaves
the Supervised Process Table holding exactly 2 x (number of distinct
runner ids) entries — equal to 2 x (list length) when the list has no
duplicates — whose keys are exactly the (runner_id, ip_family) capture
keys of the list with ip_family ranging over ipv4 and ipv6. -/
theorem C3_start_populates_table (cfg : Cfg) (rid : String) (runners : List String)
    (sys : Sys) (tf : Nat → Bool)
    (hidle : sys.st.phase = Phase.idle) (hempty : sys.procs = [])
    (hv : ∀ r ∈ runners, (RUNNER_PROFILES cfg.runner_subnet r).isSome = true) :
    (do_POST cfg "/start" (some ⟨some rid, some runners⟩) sys tf).resp =
      some (200, RespBody.started rid) ∧
    (do_POST cfg "/start" (some ⟨some rid, some runners⟩) sys tf).sys.st.phase =
      Phase.capturing ∧
    (do_POST cfg "/start" (some ⟨some rid, some runners⟩) sys tf).sys.st.run_id =
      some rid ∧
    (do_POST cfg "/start" (some ⟨some rid, some runners⟩) sys tf).sys.procs.length =
      2 * runners.dedup.length ∧
    (dkeys (do_POST cfg "/start" (some ⟨some rid, some runners⟩) sys tf).sys.procs).toFinset =
      (klist runners).toFinset := by
  have hsr := startRunners_eq cfg rid runners hv sys.procs sys.nextPid []
  rw [hempty] at hsr
  have hpost : do_POST cfg "/start" (some ⟨some rid, some runners⟩) sys tf =
      ⟨some (200, RespBody.started rid),
        ⟨{ sys.st with phase := Phase.capturing, run_id := some rid },
          insertAll [] runners sys.nextPid, sys.nextPid + 2 * runners.length⟩,
        launchesFor cfg rid runners sys.nextPid, [], [], none⟩ := by
    simp [do_POST, hidle, start_capture, hempty, hsr]
  rw [hpost]
  refine ⟨rfl, rfl, rfl, ?_, ?_⟩
  · exact length_insertAll_empty runners sys.nextPid (fun r hr => valid_of_isSome (hv r hr))
  · ext a
    simp only [List.mem_toFinset]
    rw [mem_dkeys_insertAll]
    simp [dkeys]

/-- Witness for C3 (amended) on a fresh agent with both known runners. -/
theorem C3_start_populates_table_witness :
    (do_POST cfg0 "/start" (some ⟨some "r3", some ["curl", "chrome"]⟩) initSys tf0).resp =
      some (200, RespBody.started "r3") ∧
    (do_POST cfg0 "/start" (some ⟨some "r3", some ["curl", "chrome"]⟩) initSys
        tf0).sys.st.phase = Phase.capturing ∧
    (do_POST cfg0 "/start" (some ⟨some "r3", some ["curl", "chrome"]⟩) initSys
        tf0).sys.st.run_id = some "r3" ∧
    (do_POST cfg0 "/start" (some ⟨some "r3", some ["curl", "chrome"]⟩) initSys
        tf0).sys.procs.length = 2 * ["curl", "chrome"].dedup.length ∧
    (dkeys (do_POST cfg0 "/start" (some ⟨some "r3", some ["curl", "chrome"]⟩) initSys
        tf0).sys.procs).toFinset = (klist ["curl", "chrome"]).toFinset :=
  C3_start_populates_table cfg0 "r3" ["curl", "chrome"] initSys tf0 rfl rfl (by decide)

/-- C10: start_capture launches one subprocess per occurrence of each
runner id per IP family, but keys the table by capture key alone, so the
table retains just the most recently launched handle per key (the
largest pid under that key, handles being issued in launch order); with
duplicates it ends with 2 x (number of distinct ids) entries, and the
synchronous stop signals, waits on and kills only handles present in
the table, so superseded duplicate handles are never signalled, waited
on, or killed. -/
theorem C10_duplicates_overwrite (cfg : Cfg) (rid : String) (runners : List String)
    (st : AgentState) (tf : Nat → Bool)
    (hv : ∀ r ∈ runners, (RUNNER_PROFILES cfg.runner_subnet r).isSome = true) :
    (start_capture cfg rid runners st [] 0).launched.length = 2 * runners.length ∧
    (start_capture cfg rid runners st [] 0).procs.length = 2 * runners.dedup.length ∧
    (∀ k v, (k, v) ∈ (start_capture cfg rid runners st [] 0).procs →
      (∃ L ∈ (start_capture cfg rid runners st [] 0).launched, L.key = k ∧ L.pid = v) ∧
      ∀ L ∈ (start_capture cfg rid runners st [] 0).launched, L.key = k → L.pid ≤ v) ∧
    (stop_capture (start_capture cfg rid runners st [] 0).procs tf).signalled =
      dvalues (start_capture cfg rid runners st [] 0).procs ∧
    (stop_capture (start_capture cfg rid runners st [] 0).procs tf).killed =
      (dvalues (start_capture cfg rid runners st [] 0).procs).filter tf ∧
    ∀ L ∈ (start_capture cfg rid runners st [] 0).launched,
      L.pid ∉ dvalues (start_capture cfg rid runners st [] 0).procs →
      L.pid ∉ (stop_capture (start_capture cfg rid runners st [] 0).procs tf).signalled ∧
      L.pid ∉ (stop_capture (start_capture cfg rid runners st [] 0).procs tf).killed := by
  have hsr := startRunners_eq cfg rid runners hv [] 0 []
  have hsc : start_capture cfg rid runners st [] 0 =
      ⟨{ st with phase := Phase.capturing, run_id := some rid },
        insertAll [] runners 0, 2 * runners.length, launchesFor cfg rid runners 0,
        true⟩ := by
    simp [start_capture, hsr]
  rw [hsc]
  have hinv := startInv_insertAll cfg rid runners hv
    (show StartInv [] [] 0 from ⟨by simp, by simp⟩)
  simp only [List.nil_append, Nat.zero_add] at hinv
  refine ⟨?_, ?_, ?_, ?_, ?_, ?_⟩
  · exact length_launchesFor cfg rid runners hv 0
  · exact length_insertAll_empty runners 0 (fun r hr => valid_of_isSome (hv r hr))
  · intro k v hm
    obtain ⟨hvn, hex, hmax⟩ := hinv.2 k v hm
    exact ⟨hex, hmax⟩
  · rfl
  · rfl
  · intro L hL hnot
    refine ⟨hnot, ?_⟩
    intro hk
    exact hnot (List.mem_filter.mp hk).1

/-- Witness for C10 on the duplicate list used by the counterexample of
the table-size claim: four launches, two retained handles. -/
theorem C10_duplicates_overwrite_witness :
    (start_capture cfg0 "r1" ["curl", "curl"] initState [] 0).launched.length =
      2 * ["curl", "curl"].length ∧
    (start_capture cfg0 "r1" ["curl", "curl"] initState [] 0).procs.length =
      2 * ["curl", "curl"].dedup.length ∧
    (∀ k v, (k, v) ∈ (start_capture cfg0 "r1" ["curl", "curl"] initState [] 0).procs →
      (∃ L ∈ (start_capture cfg0 "r1" ["curl", "curl"] initState [] 0).launched,
        L.key = k ∧ L.pid = v) ∧
      ∀ L ∈ (start_capture cfg0 "r1" ["curl", "curl"] initState [] 0).launched,
        L.key = k → L.pid ≤ v) ∧
    (stop_capture (start_capture cfg0 "r1" ["curl", "curl"] initState [] 0).procs
        tf0).signalled =
      dvalues (start_capture cfg0 "r1" ["curl", "curl"] initState [] 0).procs ∧
    (stop_capture (start_capture cfg0 "r1" ["curl", "curl"] initState [] 0).procs
        tf0).killed =
      (dvalues (start_capture cfg0 "r1" ["curl", "curl"] initState [] 0).procs).filter tf0 ∧
    ∀ L ∈ (start_capture cfg0 "r1" ["curl", "curl"] initState [] 0).launched,
      L.pid ∉ dvalues (start_capture cfg0 "r1" ["curl", "curl"] initState [] 0).procs →
      L.pid ∉ (stop_capture (start_capture cfg0 "r1" ["curl", "curl"] initState [] 0).procs
          tf0).signalled ∧
      L.pid ∉ (stop_capture (start_capture cfg0 "r1" ["curl", "curl"] initState [] 0).procs
          tf0).killed :=
  C10_duplicates_overwrite cfg0 "r1" ["curl", "curl"] initState tf0 (by decide)

end CaptureAgent
